import Mathlib

/-!
Verification of the RAMCloud coordinator core against its specification.

The development contains two shallow embeddings:

* `Coord`: the coordinator RPC handlers of `src/CoordinatorServer.cc`
  (createTable, dropTable, enlistServer, hintServerDown, tabletsRecovered),
  translated function by function.  Machine integers are modelled as `Nat`;
  the 64-bit all-ones key bound is the explicit constant `U64MAX`.  The raw
  `user_data` pointer that holds the will of a master is modelled as a list
  of tablets stored directly in the entry of the master.

* `CSL`: the `CoordinatorServerList` component.  Its implementation file is
  not part of this repository snapshot (only `CoordinatorServerListTest.cc`
  is), so the component is modelled from the specification text, with the
  unit test used to pin observable details the specification leaves open.
-/

namespace Coord

/-- State of a tablet, mirroring ProtoBuf Tablets.Tablet.State
(NORMAL = 0, RECOVERING = 1). -/
inductive TabletState where
  | NORMAL
  | RECOVERING
deriving DecidableEq, Repr, Inhabited

/-- One tablet record, mirroring ProtoBuf Tablets.Tablet as used by
CoordinatorServer.cc. -/
structure Tablet where
  table_id : Nat
  start_object_id : Nat
  end_object_id : Nat
  state : TabletState
  server_id : Nat
  service_locator : String
  user_data : Nat
deriving DecidableEq, Repr, Inhabited

/-- Server type, mirroring ProtoBuf ServerType. -/
inductive ServerType where
  | MASTER
  | BACKUP
deriving DecidableEq, Repr, Inhabited

/-- One entry of masterList or backupList, mirroring ProtoBuf
ServerList.Entry.  The user_data field of a master holds a raw pointer to
its will; it is modelled here as the list of will tablets itself. -/
structure ServerEntry where
  server_type : ServerType
  server_id : Nat
  service_locator : String
  will : List Tablet
deriving DecidableEq, Repr, Inhabited

/-- The mutable state of CoordinatorServer: the fields initialised by its
constructor (nextServerId = 1, empty lists and maps, nextTableId = 0). -/
structure CoordState where
  nextServerId : Nat
  backupList : List ServerEntry
  masterList : List ServerEntry
  tabletMap : List Tablet
  tables : List (String × Nat)
  nextTableId : Nat
deriving DecidableEq, Repr, Inhabited

/-- The state built by the CoordinatorServer constructor. -/
def initState : CoordState :=
  { nextServerId := 1
  , backupList := []
  , masterList := []
  , tabletMap := []
  , tables := []
  , nextTableId := 0 }

/-- Client-visible errors thrown by the handlers modelled here. -/
inductive CoordError where
  | retryLater
  | tableDoesntExist
deriving DecidableEq, Repr

/-- The largest unsigned 64-bit value, written ~0UL in the source. -/
def U64MAX : Nat := 2 ^ 64 - 1

/-- A recorded MasterClient.setTablets side effect: which service locator
was contacted and with which tablet map. -/
structure SetTabletsCall where
  locator : String
  tablets : List Tablet
deriving DecidableEq, Repr

/-- The user_data of the last entry of a will, or 0 when the will is empty.
After createTable appends its new will entry, the source reads
will.tablet(size - 2), i.e. the last entry of the old will, falling back
to 0 when the new entry is the only one. -/
def lastUserData (w : List Tablet) : Nat :=
  match w.getLast? with
  | some t => t.user_data
  | none => 0

/-- Maximum of the user_data values of a will, taking 0 for an empty will. -/
def willMax (w : List Tablet) : Nat :=
  w.foldl (fun a t => Nat.max a t.user_data) 0

/-- Decidable form of the invariant that the user_data of the last will
entry bounds every user_data in the will. -/
def lastIsMax (w : List Tablet) : Bool :=
  w.all (fun t => t.user_data ≤ lastUserData w)

/-- The will entry appended by createTable for a new table: full key
range, NORMAL, with user_data copied from the last entry of the existing
will (0 for an empty will). -/
def newWillEntry (tableId : Nat) (w : List Tablet) : Tablet :=
  { table_id := tableId
  , start_object_id := 0
  , end_object_id := U64MAX
  , state := .NORMAL
  , server_id := 0
  , service_locator := ""
  , user_data := lastUserData w }

/-- Result of the createTable handler: the state after the call, the error
reported to the client (if any), and the setTablets calls issued. -/
structure CreateOutcome where
  state : CoordState
  error : Option CoordError
  calls : List SetTabletsCall
deriving DecidableEq, Repr

/-- CoordinatorServer.createTable.  Throws RetryException when the master
list is empty; returns silently when the name is already a table; otherwise
allocates tableId = nextTableId++, appends one tablet covering the whole
key range assigned to masterList.server(0), appends a will entry whose
user_data copies the user_data of the previous last will entry (0 for an
empty will), and sends the full tablet map to that master. -/
def createTable (s : CoordState) (name : String) : CreateOutcome :=
  match s.masterList with
  | [] => { state := s, error := some .retryLater, calls := [] }
  | m :: rest =>
    match s.tables.lookup name with
    | some _ => { state := s, error := none, calls := [] }
    | none =>
      let tableId := s.nextTableId
      let tables' := (name, tableId) :: s.tables
      let tablet : Tablet :=
        { table_id := tableId
        , start_object_id := 0
        , end_object_id := U64MAX
        , state := .NORMAL
        , server_id := m.server_id
        , service_locator := m.service_locator
        , user_data := 0 }
      let tabletMap' := s.tabletMap ++ [tablet]
      let m' : ServerEntry := { m with will := m.will ++ [newWillEntry tableId m.will] }
      { state := { s with tables := tables'
                        , nextTableId := tableId + 1
                        , tabletMap := tabletMap'
                        , masterList := m' :: rest }
      , error := none
      , calls := [{ locator := m.service_locator, tablets := tabletMap' }] }

/-- CoordinatorServer.enlistServer: allocates serverId = nextServerId++,
appends an entry to masterList or backupList according to the requested
server type, and gives a fresh empty will to a master. -/
def enlistServer (s : CoordState) (ty : ServerType) (loc : String) :
    CoordState × Nat :=
  let sid := s.nextServerId
  let e : ServerEntry :=
    { server_type := ty, server_id := sid, service_locator := loc, will := [] }
  match ty with
  | .MASTER => ({ s with nextServerId := sid + 1
                       , masterList := s.masterList ++ [e] }, sid)
  | .BACKUP => ({ s with nextServerId := sid + 1
                       , backupList := s.backupList ++ [e] }, sid)

/-- SwapElements(size - 1, i) followed by RemoveLast on a repeated protobuf
field: the element at position i is replaced by the last element and the
last position is dropped. -/
def swapRemoveEntry (l : List ServerEntry) (i : Nat) : List ServerEntry :=
  match l.getLast? with
  | some x => (l.set i x).dropLast
  | none => l

/-- Same swap-with-last removal for tablet lists. -/
def swapRemoveTablet (l : List Tablet) (i : Nat) : List Tablet :=
  match l.getLast? with
  | some x => (l.set i x).dropLast
  | none => l

/-- The while loop of dropTable: starting at index i, every tablet whose
table_id equals tid is removed by swapping it with the last element and
dropping the last element; otherwise i advances. -/
def eraseTableLoop (tid : Nat) (l : List Tablet) (i : Nat) : List Tablet :=
  if h : i < l.length then
    if (l.get ⟨i, h⟩).table_id = tid then
      eraseTableLoop tid (swapRemoveTablet l i) i
    else
      eraseTableLoop tid l (i + 1)
  else l
termination_by l.length - i
decreasing_by
  · have hne : l ≠ [] := List.ne_nil_of_length_pos (Nat.lt_of_le_of_lt (Nat.zero_le i) h)
    have hlen : (swapRemoveTablet l i).length = l.length - 1 := by
      unfold swapRemoveTablet
      rw [List.getLast?_eq_getLast l hne]
      simp [List.length_dropLast, List.length_set]
    omega
  · omega

/-- Result of the dropTable handler: the state after the call and the
setTablets calls issued.  The handler reports no client error. -/
structure DropOutcome where
  state : CoordState
  calls : List SetTabletsCall
deriving DecidableEq, Repr

/-- CoordinatorServer.dropTable.  Returns silently when the name is not a
table; otherwise erases the name from tables, removes every tablet of the
table with the swap-remove loop, and then unconditionally reads
masterList.server(0) to push the updated map.  The read of
masterList.server(0) on an empty master list is out of bounds; that case
is modelled as `none`.  There is no guard comparable to the RetryException
of createTable. -/
def dropTable (s : CoordState) (name : String) : Option DropOutcome :=
  match s.tables.lookup name with
  | none => some { state := s, calls := [] }
  | some tableId =>
    let tables' := s.tables.filter (fun p => p.1 != name)
    let tabletMap' := eraseTableLoop tableId s.tabletMap 0
    match s.masterList with
    | [] => none
    | m :: _ =>
      some { state := { s with tables := tables', tabletMap := tabletMap' }
           , calls := [{ locator := m.service_locator, tablets := tabletMap' }] }

/-- First index (and entry) of the list whose service_locator equals loc,
mirroring the linear scans of hintServerDown. -/
def findLocatorAux (loc : String) : List ServerEntry → Nat → Option (Nat × ServerEntry)
  | [], _ => none
  | e :: rest, i =>
    if e.service_locator = loc then some (i, e) else findLocatorAux loc rest (i + 1)

/-- Search a server list for the first entry with the given locator. -/
def findLocator (l : List ServerEntry) (loc : String) : Option (Nat × ServerEntry) :=
  findLocatorAux loc l 0

/-- Transition to RECOVERING every tablet whose server_id equals sid,
leaving every other field and every other tablet unchanged. -/
def markRecovering (sid : Nat) (tm : List Tablet) : List Tablet :=
  tm.map (fun t => if t.server_id = sid then { t with state := .RECOVERING } else t)

/-- A recorded invocation of the recovery engine:
Recovery(masterId, will, masterList, backupList).start(). -/
structure RecoveryCall where
  deadServerId : Nat
  will : List Tablet
  masters : List ServerEntry
  backups : List ServerEntry
deriving DecidableEq, Repr

/-- CoordinatorServer.hintServerDown (after the early response).  If the
locator names a master: capture its will, remove the master from
masterList by swap-remove, set every tablet it owned to RECOVERING, and
invoke recovery once with the captured will and the updated lists.  If the
locator names a backup: remove it and return.  Otherwise do nothing. -/
def hintServerDown (s : CoordState) (loc : String) : CoordState × List RecoveryCall :=
  match findLocator s.masterList loc with
  | some (i, m) =>
    let sid := m.server_id
    let masters' := swapRemoveEntry s.masterList i
    let tm' := markRecovering sid s.tabletMap
    ({ s with masterList := masters', tabletMap := tm' },
     [{ deadServerId := sid, will := m.will, masters := masters', backups := s.backupList }])
  | none =>
    match findLocator s.backupList loc with
    | some (i, _) => ({ s with backupList := swapRemoveEntry s.backupList i }, [])
    | none => (s, [])

/-- CoordinatorServer.tabletsRecovered.  The handler parses the request
into a local variable and emits a test log line; it performs no state
mutation.  The returned string is the TEST_LOG output. -/
def tabletsRecovered (s : CoordState) (tablets : List Tablet) : CoordState × String :=
  (s, "called with " ++ toString tablets.length ++ " tablets")

end Coord

namespace CSL

/-- Modelled from the spec: lifecycle states of a CoordinatorServerList
entry (UP = 0, CRASHED = 1, DOWN = 2).  The implementation file
CoordinatorServerList.cc is missing from this snapshot; only its unit test
is present. -/
inductive ServerStatus where
  | UP
  | CRASHED
  | DOWN
deriving DecidableEq, Repr, Inhabited

/-- Modelled from the spec: the capability enumeration of a ServiceMask. -/
inductive Service where
  | MASTER
  | BACKUP
  | MEMBERSHIP
  | PING
deriving DecidableEq, Repr, Inhabited

/-- Modelled from the spec: a two-part server identifier
(slot index, generation). -/
structure ServerId where
  slot : Nat
  generation : Nat
deriving DecidableEq, Repr, Inhabited

/-- Modelled from the spec: one live entry of the CoordinatorServerList.
The lastKnownVersion field carries the per-recipient version tracking of
the membership updater (0 before first contact). -/
structure Entry where
  serverId : ServerId
  serviceLocator : String
  services : List Service
  expectedReadMBytesPerSec : Nat
  status : ServerStatus
  lastKnownVersion : Nat
deriving DecidableEq, Repr, Inhabited

/-- Modelled from the spec: one slot of the server list, holding the next
generation number for that slot and an optional entry. -/
structure Slot where
  nextGenerationNumber : Nat
  entry : Option Entry
deriving DecidableEq, Repr, Inhabited

/-- Modelled from the spec: one record of the pending update delta — the
fields of the serialized entry together with the transition status
(ADDED entries carry UP). -/
structure UpdateRec where
  serverId : ServerId
  serviceLocator : String
  services : List Service
  expectedReadMBytesPerSec : Nat
  status : ServerStatus
deriving DecidableEq, Repr, Inhabited

/-- Serialize an entry into an update record with the given status. -/
def updateRec (e : Entry) (st : ServerStatus) : UpdateRec :=
  { serverId := e.serverId
  , serviceLocator := e.serviceLocator
  , services := e.services
  , expectedReadMBytesPerSec := e.expectedReadMBytesPerSec
  , status := st }

/-- Modelled from the spec: the CoordinatorServerList state — the slot
vector (index 0 permanently empty), the UP-entry counters, the committed
version, and the pending update delta. -/
structure CSLState where
  serverList : List Slot
  numberOfMasters : Nat
  numberOfBackups : Nat
  version : Nat
  updates : List UpdateRec
deriving DecidableEq, Repr, Inhabited

/-- The state built by the CoordinatorServerList constructor. -/
def initCSL : CSLState :=
  { serverList := []
  , numberOfMasters := 0
  , numberOfBackups := 0
  , version := 0
  , updates := [] }

/-- Errors of the server list operations. -/
inductive CSLErr where
  | invalidServerId
deriving DecidableEq, Repr

/-- True when slot i either does not exist yet or holds no entry. -/
def slotFree (slots : List Slot) (i : Nat) : Bool :=
  match slots[i]? with
  | some sl => sl.entry.isNone
  | none => true

/-- Modelled from the spec: the lowest free slot index that is at least 1
(index 0 is reserved so that a zero index denotes an invalid id). -/
def firstFreeIndex (slots : List Slot) : Nat :=
  match (List.range slots.length).find? (fun i => decide (1 ≤ i) && slotFree slots i) with
  | some i => i
  | none => Nat.max slots.length 1

/-- Grow the slot vector so that index i exists, filling new slots with
generation counter 0 and no entry. -/
def ensureSize (slots : List Slot) (i : Nat) : List Slot :=
  slots ++ List.replicate (i + 1 - slots.length) { nextGenerationNumber := 0, entry := none }

/-- Replace the entry stored at slot i, keeping the generation counter of
the slot. -/
def setEntry (slots : List Slot) (i : Nat) (e : Option Entry) : List Slot :=
  match slots[i]? with
  | some sl => slots.set i { sl with entry := e }
  | none => slots

/-- Modelled from the spec: CoordinatorServerList.add.  Picks the lowest
free slot index at least 1 (growing the vector if needed), assigns
ServerId(slot, nextGenerationNumber[slot]) and advances that counter,
stores an UP entry (expectedReadMBytesPerSec forced to 0 for non-backups),
adjusts the counters, and appends an ADDED record (status UP) to the
pending delta.  The unit test pins the generation bump to add: right after
the first add the slot counter is already 1 while the returned id carries
generation 0. -/
def add (s : CSLState) (locator : String) (services : List Service) (mbps : Nat) :
    CSLState × ServerId :=
  let i := firstFreeIndex s.serverList
  let slots := ensureSize s.serverList i
  let g := (slots[i]?.map Slot.nextGenerationNumber).getD 0
  let id : ServerId := { slot := i, generation := g }
  let e : Entry :=
    { serverId := id
    , serviceLocator := locator
    , services := services
    , expectedReadMBytesPerSec := if services.contains .BACKUP then mbps else 0
    , status := .UP
    , lastKnownVersion := 0 }
  let slots' := slots.set i { nextGenerationNumber := g + 1, entry := some e }
  ({ s with serverList := slots'
          , numberOfMasters := s.numberOfMasters + (if services.contains .MASTER then 1 else 0)
          , numberOfBackups := s.numberOfBackups + (if services.contains .BACKUP then 1 else 0)
          , updates := s.updates ++ [updateRec e .UP] }, id)

/-- Look up the live entry matching a ServerId: the slot must hold an
entry whose stored id (slot and generation) equals the argument. -/
def getEntry (s : CSLState) (id : ServerId) : Option Entry :=
  match s.serverList[id.slot]? with
  | some sl =>
    match sl.entry with
    | some e => if e.serverId = id then some e else none
    | none => none
  | none => none

/-- The UP-to-CRASHED mutation shared by crashed and remove: store the
entry with status CRASHED, decrement the capability counters, and append a
CRASHED record to the pending delta. -/
def crashedEffect (s : CSLState) (e : Entry) : CSLState :=
  let e' : Entry := { e with status := .CRASHED }
  { s with serverList := setEntry s.serverList e.serverId.slot (some e')
         , numberOfMasters :=
             s.numberOfMasters - (if e.services.contains .MASTER then 1 else 0)
         , numberOfBackups :=
             s.numberOfBackups - (if e.services.contains .BACKUP then 1 else 0)
         , updates := s.updates ++ [updateRec e .CRASHED] }

/-- Modelled from the spec: CoordinatorServerList.crashed.  Fails with
InvalidServerId when the id matches no live entry; returns without change
and without a delta when the entry is already CRASHED; otherwise performs
the UP-to-CRASHED mutation. -/
def crashed (s : CSLState) (id : ServerId) : Except CSLErr CSLState :=
  match getEntry s id with
  | none => .error .invalidServerId
  | some e =>
    if e.status = .CRASHED then .ok s
    else .ok (crashedEffect s e)

/-- The DOWN mutation of remove: append a DOWN record and clear the slot.
The generation counter of the slot is left as add set it; the unit test
pins this (a subsequent add of the freed slot returns ServerId(1,1) after
ServerId(1,0) was removed, and the counter reads 1 both right after the
add and right after the remove). -/
def downEffect (s : CSLState) (e : Entry) : CSLState :=
  { s with serverList := setEntry s.serverList e.serverId.slot none
         , updates := s.updates ++ [updateRec e .DOWN] }

/-- Modelled from the spec: CoordinatorServerList.remove.  Fails with
InvalidServerId when the id matches no live entry; when the entry is UP it
first performs the effect of crashed; it then emits a DOWN delta and
clears the slot, after which the old ServerId can never match again. -/
def remove (s : CSLState) (id : ServerId) : Except CSLErr CSLState :=
  match getEntry s id with
  | none => .error .invalidServerId
  | some e =>
    let s1 := if e.status = .UP then crashedEffect s e else s
    .ok (downEffect s1 e)

/-- Modelled from the spec: the reply of a recipient of a membership
update. -/
inductive Reply where
  | ok
  | lostUpdate
deriving DecidableEq, Repr

/-- Kind of a message sent by the membership updater. -/
inductive MsgKind where
  | incremental
  | fullList
deriving DecidableEq, Repr

/-- One message dispatched by the membership updater: to whom, of which
kind, and carrying which version. -/
structure SentMsg where
  recipient : ServerId
  kind : MsgKind
  version : Nat
deriving DecidableEq, Repr

/-- Modelled from the spec: per-recipient protocol of the membership
updater for a delta advancing the cluster to version v.  If the last-known
version of the recipient is v - 1 the incremental delta is sent; any other
case gets a full-list push.  A lost_update reply to the incremental
triggers an immediate full-list push.  On an ok reply the new version is
recorded for the recipient.  The oracle gives the reply of the recipient
to each message kind. -/
def updateRecipient (oracle : ServerId → MsgKind → Reply) (v : Nat) (e : Entry) :
    Entry × List SentMsg :=
  if e.lastKnownVersion + 1 = v then
    match oracle e.serverId .incremental with
    | .ok => ({ e with lastKnownVersion := v },
              [{ recipient := e.serverId, kind := .incremental, version := v }])
    | .lostUpdate =>
      match oracle e.serverId .fullList with
      | .ok => ({ e with lastKnownVersion := v },
                [{ recipient := e.serverId, kind := .incremental, version := v },
                 { recipient := e.serverId, kind := .fullList, version := v }])
      | .lostUpdate => (e,
                [{ recipient := e.serverId, kind := .incremental, version := v },
                 { recipient := e.serverId, kind := .fullList, version := v }])
  else
    match oracle e.serverId .fullList with
    | .ok => ({ e with lastKnownVersion := v },
              [{ recipient := e.serverId, kind := .fullList, version := v }])
    | .lostUpdate => (e,
              [{ recipient := e.serverId, kind := .fullList, version := v }])

/-- True when an entry is a valid recipient of a membership update: it is
UP, advertises the MEMBERSHIP capability, and is not excluded. -/
def isRecipient (exclude : List ServerId) (e : Entry) : Bool :=
  e.status = .UP && e.services.contains .MEMBERSHIP && !(exclude.contains e.serverId)

/-- Per-slot step of sendMembershipUpdate: a slot holding a valid
recipient is processed by updateRecipient; every other slot is untouched
and receives nothing. -/
def updateSlot (oracle : ServerId → MsgKind → Reply) (exclude : List ServerId)
    (v : Nat) (sl : Slot) : Slot × List SentMsg :=
  match sl.entry with
  | some e =>
    if isRecipient exclude e then
      let r := updateRecipient oracle v e
      ({ sl with entry := some r.1 }, r.2)
    else (sl, [])
  | none => (sl, [])

/-- Modelled from the spec: CoordinatorServerList.sendMembershipUpdate.
Commits the pending delta as version + 1, clears it, and walks the slots
in slot order, dispatching to every UP entry that advertises MEMBERSHIP
and is not excluded.  Returns the new state and the messages sent in
order. -/
def sendMembershipUpdate (s : CSLState) (exclude : List ServerId)
    (oracle : ServerId → MsgKind → Reply) : CSLState × List SentMsg :=
  let v := s.version + 1
  let results := s.serverList.map (updateSlot oracle exclude v)
  ({ s with version := v
          , updates := []
          , serverList := results.map Prod.fst },
   (results.map Prod.snd).flatten)

end CSL

/-!
Theorems settling the claims.
-/

/-- C10: for every input payload, the tabletsRecovered handler leaves all
coordinator state unchanged — the tablet map, the tables map, the master
list, the backup list, nextTableId and nextServerId are identical before
and after; the handler only parses the request and logs. -/
theorem c10_tabletsRecovered_frame (s : Coord.CoordState) (ts : List Coord.Tablet) :
    (Coord.tabletsRecovered s ts).1.tabletMap = s.tabletMap ∧
    (Coord.tabletsRecovered s ts).1.tables = s.tables ∧
    (Coord.tabletsRecovered s ts).1.masterList = s.masterList ∧
    (Coord.tabletsRecovered s ts).1.backupList = s.backupList ∧
    (Coord.tabletsRecovered s ts).1.nextTableId = s.nextTableId ∧
    (Coord.tabletsRecovered s ts).1.nextServerId = s.nextServerId :=
  ⟨rfl, rfl, rfl, rfl, rfl, rfl⟩

/-- A state in which master 1 has been declared down: its former tablet is
RECOVERING and still records server_id 1, master 2 is the only live
master. -/
def deadRecoveringState : Coord.CoordState :=
  { nextServerId := 3
  , backupList := []
  , masterList := [{ server_type := .MASTER, server_id := 2
                   , service_locator := "mock:host=m2", will := [] }]
  , tabletMap := [{ table_id := 0, start_object_id := 0
                  , end_object_id := Coord.U64MAX
                  , state := .RECOVERING, server_id := 1
                  , service_locator := "mock:host=m1", user_data := 0 }]
  , tables := [("t", 0)]
  , nextTableId := 1 }

/-- A tabletsRecovered request that covers exactly the dead range of
server 1, now NORMAL and owned by server 2. -/
def recoveredTablets : List Coord.Tablet :=
  [{ table_id := 0, start_object_id := 0, end_object_id := Coord.U64MAX
   , state := .NORMAL, server_id := 2, service_locator := "mock:host=m2"
   , user_data := 0 }]

/-- C1: evaluation of the tabletsRecovered handler at a request that
matches the dead ranges of server 1 exactly.  The claim expects the
RECOVERING entry to be replaced by the provided NORMAL entry; the handler
instead leaves the whole state untouched (the tablet is still RECOVERING
and still owned by server 1) and merely logs the tablet count. -/
theorem c1_tabletsRecovered_is_stub :
    (Coord.tabletsRecovered deadRecoveringState recoveredTablets).1 = deadRecoveringState ∧
    (Coord.tabletsRecovered deadRecoveringState recoveredTablets).1.tabletMap.map
        Coord.Tablet.state = [.RECOVERING] ∧
    (Coord.tabletsRecovered deadRecoveringState recoveredTablets).2 =
      "called with 1 tablets" :=
  ⟨rfl, rfl, rfl⟩

/-- Helper: with an empty master list, createTable rejects with
RetryLater and changes nothing. -/
theorem createTable_empty_masters (s : Coord.CoordState) (name : String)
    (h : s.masterList = []) :
    Coord.createTable s name =
      { state := s, error := some Coord.CoordError.retryLater, calls := [] } := by
  unfold Coord.createTable
  rw [h]

/-- C3: createTable fails with RetryLater exactly when the master list is
empty, and in that case the whole outcome is the unchanged state with no
setTablets call — in particular from the empty initial state. -/
theorem c3_createTable_retryLater_iff (s : Coord.CoordState) (name : String) :
    ((Coord.createTable s name).error = some Coord.CoordError.retryLater ↔
      s.masterList = []) ∧
    (s.masterList = [] →
      Coord.createTable s name =
        { state := s, error := some Coord.CoordError.retryLater, calls := [] }) := by
  refine ⟨⟨?_, ?_⟩, ?_⟩
  · intro h
    cases hm : s.masterList with
    | nil => rfl
    | cons m rest =>
      exfalso
      unfold Coord.createTable at h
      rw [hm] at h
      cases hl : s.tables.lookup name with
      | none => rw [hl] at h; simp at h
      | some tid => rw [hl] at h; simp at h
  · intro h
    rw [createTable_empty_masters s name h]
  · intro h
    exact createTable_empty_masters s name h

/-- C3 witness: from the initial state, createTable on the name x fails
with RetryLater and the state, tables, tablet map and nextTableId are
untouched. -/
theorem c3_witness :
    (Coord.createTable Coord.initState "x").error =
      some Coord.CoordError.retryLater ∧
    (Coord.createTable Coord.initState "x").state = Coord.initState :=
  ⟨(c3_createTable_retryLater_iff Coord.initState "x").1.mpr rfl,
   congrArg Coord.CreateOutcome.state
     ((c3_createTable_retryLater_iff Coord.initState "x").2 rfl)⟩

/-- C4: with at least one master enlisted and a fresh name, createTable
allocates tableId = nextTableId and advances the counter, registers the
name, and appends exactly one tablet covering the whole 64-bit key range
in NORMAL state, assigned to the server_id and service_locator of the
first master of the list (the first UP master in slot order: every entry
of masterList is up, and list position is slot order). -/
theorem c4_createTable_new (s : Coord.CoordState) (name : String)
    (m : Coord.ServerEntry) (rest : List Coord.ServerEntry)
    (hm : s.masterList = m :: rest) (hn : s.tables.lookup name = none) :
    (Coord.createTable s name).error = none ∧
    (Coord.createTable s name).state.nextTableId = s.nextTableId + 1 ∧
    (Coord.createTable s name).state.tables.lookup name = some s.nextTableId ∧
    (Coord.createTable s name).state.tabletMap =
      s.tabletMap ++
        [{ table_id := s.nextTableId
         , start_object_id := 0
         , end_object_id := Coord.U64MAX
         , state := Coord.TabletState.NORMAL
         , server_id := m.server_id
         , service_locator := m.service_locator
         , user_data := 0 }] := by
  unfold Coord.createTable
  rw [hm, hn]
  refine ⟨rfl, rfl, ?_, rfl⟩
  simp [List.lookup]

/-- The coordinator state after enlisting one master with locator
mock:host=m1 from the initial state. -/
def oneMasterState : Coord.CoordState :=
  (Coord.enlistServer Coord.initState .MASTER "mock:host=m1").1

/-- The entry that enlistServer created for that master. -/
def oneMasterEntry : Coord.ServerEntry :=
  { server_type := .MASTER, server_id := 1
  , service_locator := "mock:host=m1", will := [] }

/-- C4 witness: creating the table foo in the one-master state places one
full-range NORMAL tablet on master 1 and advances nextTableId to 1. -/
theorem c4_witness :
    (Coord.createTable oneMasterState "foo").error = none ∧
    (Coord.createTable oneMasterState "foo").state.nextTableId =
      oneMasterState.nextTableId + 1 ∧
    (Coord.createTable oneMasterState "foo").state.tables.lookup "foo" =
      some oneMasterState.nextTableId ∧
    (Coord.createTable oneMasterState "foo").state.tabletMap =
      oneMasterState.tabletMap ++
        [{ table_id := oneMasterState.nextTableId
         , start_object_id := 0
         , end_object_id := Coord.U64MAX
         , state := Coord.TabletState.NORMAL
         , server_id := oneMasterEntry.server_id
         , service_locator := oneMasterEntry.service_locator
         , user_data := 0 }] :=
  c4_createTable_new oneMasterState "foo" oneMasterEntry [] rfl rfl

/-- C2: when the hinted locator matches a master (findLocator returns the
first matching index and entry, mirroring the scan of the handler), after
hintServerDown every tablet whose server_id equals the id of that master
is RECOVERING with its server_id field unchanged, every other tablet is
unchanged, and the recovery engine is invoked exactly once with the
captured snapshot of the will of that master (and the post-removal server
lists). -/
theorem c2_hintServerDown_master (s : Coord.CoordState) (loc : String)
    (i : Nat) (m : Coord.ServerEntry)
    (hf : Coord.findLocator s.masterList loc = some (i, m)) :
    (Coord.hintServerDown s loc).1.tabletMap =
      Coord.markRecovering m.server_id s.tabletMap ∧
    (∀ (j : Nat) (t : Coord.Tablet), s.tabletMap[j]? = some t →
      (t.server_id = m.server_id →
        (Coord.hintServerDown s loc).1.tabletMap[j]? =
          some { t with state := Coord.TabletState.RECOVERING }) ∧
      (t.server_id ≠ m.server_id →
        (Coord.hintServerDown s loc).1.tabletMap[j]? = some t)) ∧
    (Coord.hintServerDown s loc).2 =
      [{ deadServerId := m.server_id
       , will := m.will
       , masters := Coord.swapRemoveEntry s.masterList i
       , backups := s.backupList }] := by
  have hr : Coord.hintServerDown s loc =
      ({ s with masterList := Coord.swapRemoveEntry s.masterList i
              , tabletMap := Coord.markRecovering m.server_id s.tabletMap },
       [{ deadServerId := m.server_id
        , will := m.will
        , masters := Coord.swapRemoveEntry s.masterList i
        , backups := s.backupList }]) := by
    unfold Coord.hintServerDown
    rw [hf]
  refine ⟨by rw [hr], ?_, by rw [hr]⟩
  intro j t ht
  constructor
  · intro hid
    rw [hr]
    show (Coord.markRecovering m.server_id s.tabletMap)[j]? = _
    unfold Coord.markRecovering
    rw [List.getElem?_map, ht]
    simp [hid]
  · intro hid
    rw [hr]
    show (Coord.markRecovering m.server_id s.tabletMap)[j]? = _
    unfold Coord.markRecovering
    rw [List.getElem?_map, ht]
    simp [hid]

/-- A state with masters 1 and 2 and the table t placed on master 1:
enlist both masters, then create the table. -/
def twoMasterState : Coord.CoordState :=
  (Coord.createTable
    ((Coord.enlistServer
      (Coord.enlistServer Coord.initState .MASTER "mock:host=m1").1
      .MASTER "mock:host=m2").1) "t").state

/-- C2 witness: hinting master 1 down in the two-master state turns its
tablet RECOVERING (server_id still 1) and invokes recovery once with the
will snapshot of master 1. -/
theorem c2_witness :
    (Coord.hintServerDown twoMasterState "mock:host=m1").1.tabletMap =
      Coord.markRecovering 1 twoMasterState.tabletMap ∧
    (Coord.hintServerDown twoMasterState "mock:host=m1").1.tabletMap[0]? =
      some { table_id := 0, start_object_id := 0
           , end_object_id := Coord.U64MAX
           , state := Coord.TabletState.RECOVERING, server_id := 1
           , service_locator := "mock:host=m1", user_data := 0 } ∧
    (Coord.hintServerDown twoMasterState "mock:host=m1").2 =
      [{ deadServerId := 1
       , will := [Coord.newWillEntry 0 []]
       , masters := Coord.swapRemoveEntry twoMasterState.masterList 0
       , backups := [] }] := by
  have h := c2_hintServerDown_master twoMasterState "mock:host=m1" 0
    { server_type := .MASTER, server_id := 1
    , service_locator := "mock:host=m1", will := [Coord.newWillEntry 0 []] }
    (by decide)
  exact ⟨h.1,
    ((h.2.1 0 { table_id := 0, start_object_id := 0
              , end_object_id := Coord.U64MAX
              , state := Coord.TabletState.NORMAL, server_id := 1
              , service_locator := "mock:host=m1", user_data := 0 }
        (by decide)).1 rfl),
    h.2.2⟩

/-- C9: dropTable on an existing table name carries no guard on the master
list.  With no master enlisted the handler reaches the unconditional
masterList.server(0) read, modelled as the out-of-bounds result none —
while createTable in the same state rejects cleanly with RetryLater.  With
at least one master, the handler succeeds and the setTablets push goes to
the first entry of the master list with the post-deletion tablet map. -/
theorem c9_dropTable_unguarded (s : Coord.CoordState) (name : String)
    (h : (s.tables.lookup name).isSome) :
    (s.masterList = [] →
      Coord.dropTable s name = none ∧
      (Coord.createTable s name).error = some Coord.CoordError.retryLater) ∧
    (∀ (m : Coord.ServerEntry) (rest : List Coord.ServerEntry),
      s.masterList = m :: rest →
      ∃ st : Coord.CoordState,
        Coord.dropTable s name =
          some { state := st
               , calls := [{ locator := m.service_locator
                           , tablets := st.tabletMap }] }) := by
  cases hl : s.tables.lookup name with
  | none => rw [hl] at h; simp at h
  | some tid =>
    constructor
    · intro hm
      constructor
      · unfold Coord.dropTable
        rw [hl, hm]
      · rw [createTable_empty_masters s name hm]
    · intro m rest hm
      refine ⟨{ s with tables := s.tables.filter (fun p => p.1 != name)
                     , tabletMap := Coord.eraseTableLoop tid s.tabletMap 0 }, ?_⟩
      unfold Coord.dropTable
      rw [hl, hm]

/-- A state holding the table t with one tablet but no master at all:
table t exists while the master list is empty. -/
def tableNoMasterState : Coord.CoordState :=
  { nextServerId := 2
  , backupList := []
  , masterList := []
  , tabletMap := [{ table_id := 0, start_object_id := 0
                  , end_object_id := Coord.U64MAX
                  , state := .RECOVERING, server_id := 1
                  , service_locator := "mock:host=m1", user_data := 0 }]
  , tables := [("t", 0)]
  , nextTableId := 1 }

/-- C9 witness: dropping the table t with an empty master list hits the
out-of-bounds read (none), while createTable in the same state is the
guarded RetryLater rejection. -/
theorem c9_witness :
    Coord.dropTable tableNoMasterState "t" = none ∧
    (Coord.createTable tableNoMasterState "t").error =
      some Coord.CoordError.retryLater :=
  (c9_dropTable_unguarded tableNoMasterState "t" (by decide)).1 rfl

/-- Helper: the max fold over user_data values never drops below its
accumulator. -/
theorem le_willFold (w : List Coord.Tablet) (a : Nat) :
    a ≤ w.foldl (fun x t => Nat.max x t.user_data) a := by
  induction w generalizing a with
  | nil => exact Nat.le_refl a
  | cons t rest ih =>
    exact Nat.le_trans (Nat.le_max_left a t.user_data) (ih (Nat.max a t.user_data))

/-- Helper: the max fold over user_data values bounds every member. -/
theorem mem_le_willFold (w : List Coord.Tablet) (t : Coord.Tablet) (ht : t ∈ w) :
    ∀ a : Nat, t.user_data ≤ w.foldl (fun x y => Nat.max x y.user_data) a := by
  induction w with
  | nil => cases ht
  | cons x rest ih =>
    intro a
    cases ht with
    | head =>
      exact Nat.le_trans (Nat.le_max_right a t.user_data) (le_willFold rest _)
    | tail _ h => exact ih h (Nat.max a x.user_data)

/-- Helper: the max fold over user_data values stays below any common
bound of the accumulator and the members. -/
theorem willFold_le (w : List Coord.Tablet) (b : Nat) :
    (∀ t ∈ w, t.user_data ≤ b) →
    ∀ a, a ≤ b → w.foldl (fun x t => Nat.max x t.user_data) a ≤ b := by
  induction w with
  | nil => intro _ a ha; exact ha
  | cons x rest ih =>
    intro hw a ha
    exact ih (fun t ht => hw t (List.mem_cons_of_mem x ht)) (Nat.max a x.user_data)
      (Nat.max_le.mpr ⟨ha, hw x (List.mem_cons_self x rest)⟩)

/-- Helper: under the last-is-max invariant, the user_data of the last
will entry is the maximum of all user_data values (0 for an empty will). -/
theorem lastUserData_eq_willMax (w : List Coord.Tablet)
    (h : Coord.lastIsMax w = true) : Coord.lastUserData w = Coord.willMax w := by
  have hb : ∀ t ∈ w, t.user_data ≤ Coord.lastUserData w := by
    intro t ht
    exact of_decide_eq_true (List.all_eq_true.mp h t ht)
  apply Nat.le_antisymm
  · cases hl : w.getLast? with
    | none =>
      show (match w.getLast? with
            | some t => t.user_data
            | none => 0) ≤ Coord.willMax w
      rw [hl]
      exact Nat.zero_le _
    | some t =>
      have hw : w = (List.getLast?_eq_some_iff.mp hl).choose ++ [t] :=
        (List.getLast?_eq_some_iff.mp hl).choose_spec
      have hmem : t ∈ w := by
        rw [hw]; exact List.mem_append_right _ (List.mem_singleton.mpr rfl)
      show (match w.getLast? with
            | some t => t.user_data
            | none => 0) ≤ Coord.willMax w
      rw [hl]
      exact mem_le_willFold w t hmem 0
  · exact willFold_le w (Coord.lastUserData w) hb 0 (Nat.zero_le _)

/-- Helper: appending an entry whose user_data equals the user_data of
the previous last entry preserves the last-is-max invariant. -/
theorem lastIsMax_append (w : List Coord.Tablet) (we : Coord.Tablet)
    (hud : we.user_data = Coord.lastUserData w)
    (h : Coord.lastIsMax w = true) :
    Coord.lastIsMax (w ++ [we]) = true := by
  have hlast : Coord.lastUserData (w ++ [we]) = we.user_data := by
    unfold Coord.lastUserData
    rw [List.getLast?_concat]
  apply List.all_eq_true.mpr
  intro t ht
  rw [hlast]
  rcases List.mem_append.mp ht with hw | hwe
  · have := List.all_eq_true.mp h t hw
    simp only [decide_eq_true_eq] at this ⊢
    rw [hud]
    exact this
  · rw [List.mem_singleton.mp hwe]
    simp

/-- C5: for every successful createTable of a new name, assuming the will
of the target master satisfies the documented invariant (the user_data of
its last entry is the maximum partition id used), the appended will entry
has user_data equal to max(existing will user_data values, 0), and after
the operation the user_data of the last will entry is again the maximum
partition id used in that will. -/
theorem c5_createTable_will (s : Coord.CoordState) (name : String)
    (m : Coord.ServerEntry) (rest : List Coord.ServerEntry)
    (hm : s.masterList = m :: rest) (hn : s.tables.lookup name = none)
    (hinv : Coord.lastIsMax m.will = true) :
    (Coord.createTable s name).state.masterList =
      { m with will := m.will ++ [Coord.newWillEntry s.nextTableId m.will] } :: rest ∧
    (Coord.newWillEntry s.nextTableId m.will).user_data = Coord.willMax m.will ∧
    Coord.lastIsMax (m.will ++ [Coord.newWillEntry s.nextTableId m.will]) = true ∧
    Coord.lastUserData (m.will ++ [Coord.newWillEntry s.nextTableId m.will]) =
      Coord.willMax (m.will ++ [Coord.newWillEntry s.nextTableId m.will]) := by
  have hud : (Coord.newWillEntry s.nextTableId m.will).user_data =
      Coord.lastUserData m.will := rfl
  have hpres := lastIsMax_append m.will (Coord.newWillEntry s.nextTableId m.will) hud hinv
  refine ⟨?_, ?_, hpres, lastUserData_eq_willMax _ hpres⟩
  · unfold Coord.createTable
    rw [hm, hn]
  · rw [hud]
    exact lastUserData_eq_willMax m.will hinv

/-- C5 witness: in a state whose single master carries a will with
user_data values 0 and 2 (last entry maximal), creating a fresh table
appends a will entry with user_data 2 = max(existing, 0), and the new
last entry is again maximal. -/
def willState : Coord.CoordState :=
  { nextServerId := 2
  , backupList := []
  , masterList := [{ server_type := .MASTER, server_id := 1
                   , service_locator := "mock:host=m1"
                   , will := [{ table_id := 0, start_object_id := 0
                              , end_object_id := 5, state := .NORMAL
                              , server_id := 0, service_locator := ""
                              , user_data := 0 }
                             , { table_id := 0, start_object_id := 6
                               , end_object_id := Coord.U64MAX, state := .NORMAL
                               , server_id := 0, service_locator := ""
                               , user_data := 2 }] }]
  , tabletMap := [{ table_id := 0, start_object_id := 0
                  , end_object_id := Coord.U64MAX, state := .NORMAL
                  , server_id := 1, service_locator := "mock:host=m1"
                  , user_data := 0 }]
  , tables := [("t", 0)]
  , nextTableId := 1 }

/-- C5 witness theorem, instantiating the claim at willState. -/
theorem c5_witness :
    (Coord.createTable willState "u").state.masterList =
      { server_type := Coord.ServerType.MASTER, server_id := 1
      , service_locator := "mock:host=m1"
      , will := (willState.masterList.headI).will ++
          [Coord.newWillEntry 1 (willState.masterList.headI).will] } :: [] ∧
    (Coord.newWillEntry 1 (willState.masterList.headI).will).user_data =
      Coord.willMax (willState.masterList.headI).will := by
  have h := c5_createTable_will willState "u" (willState.masterList.headI) []
    rfl rfl (by decide)
  exact ⟨h.1, h.2.1⟩

/-- Helper: a successful getEntry means the stored id matches and the slot
exists with that entry. -/
theorem getEntry_some (s : CSL.CSLState) (id : CSL.ServerId) (e : CSL.Entry)
    (h : CSL.getEntry s id = some e) :
    e.serverId = id ∧
    ∃ sl : CSL.Slot, s.serverList[id.slot]? = some sl ∧ sl.entry = some e := by
  unfold CSL.getEntry at h
  cases hs : s.serverList[id.slot]? with
  | none => rw [hs] at h; cases h
  | some sl =>
    rw [hs] at h
    simp only [] at h
    cases he : sl.entry with
    | none => rw [he] at h; simp only [] at h; cases h
    | some e0 =>
      rw [he] at h
      simp only [] at h
      by_cases heq : e0.serverId = id
      · rw [if_pos heq] at h
        obtain rfl := Option.some.inj h
        exact ⟨heq, sl, rfl, he⟩
      · rw [if_neg heq] at h; cases h

/-- Helper: setEntry at an existing slot stores the new entry and keeps
the generation counter of the slot. -/
theorem setEntry_same (slots : List CSL.Slot) (i : Nat) (sl : CSL.Slot)
    (hs : slots[i]? = some sl) (e : Option CSL.Entry) :
    (CSL.setEntry slots i e)[i]? = some { sl with entry := e } := by
  obtain ⟨hlt, _⟩ := List.getElem?_eq_some_iff.mp hs
  unfold CSL.setEntry
  rw [hs]
  exact List.getElem?_set_self hlt

/-- C8: crashed is idempotent — on an entry already CRASHED it returns
the state unchanged and emits no delta, and on an UP entry the first call
emits exactly one CRASHED record while an immediate second call returns
the reached state unchanged, so two calls in succession emit exactly one
delta in total. -/
theorem c8_crashed_idempotent (s : CSL.CSLState) (id : CSL.ServerId)
    (e : CSL.Entry) (he : CSL.getEntry s id = some e) :
    (e.status = .CRASHED → CSL.crashed s id = .ok s) ∧
    (e.status = .UP →
      CSL.crashed s id = .ok (CSL.crashedEffect s e) ∧
      CSL.crashed (CSL.crashedEffect s e) id = .ok (CSL.crashedEffect s e) ∧
      (CSL.crashedEffect s e).updates =
        s.updates ++ [CSL.updateRec e .CRASHED]) := by
  obtain ⟨hid, sl, hsl, hent⟩ := getEntry_some s id e he
  constructor
  · intro hc
    unfold CSL.crashed
    rw [he]
    simp [hc]
  · intro hup
    have hne : ¬ e.status = CSL.ServerStatus.CRASHED := by rw [hup]; decide
    have hget2 : CSL.getEntry (CSL.crashedEffect s e) id =
        some { e with status := .CRASHED } := by
      unfold CSL.getEntry CSL.crashedEffect
      have : (CSL.setEntry s.serverList e.serverId.slot
          (some { e with status := CSL.ServerStatus.CRASHED }))[id.slot]? =
          some { sl with entry := some { e with status := CSL.ServerStatus.CRASHED } } := by
        rw [hid]
        exact setEntry_same s.serverList id.slot sl hsl _
      rw [this]
      simp [hid]
    refine ⟨?_, ?_, rfl⟩
    · unfold CSL.crashed
      rw [he]
      simp [hne]
    · unfold CSL.crashed
      rw [hget2]
      simp

/-- The server list state after adding one master in slot 1. -/
def oneServerCSL : CSL.CSLState := (CSL.add CSL.initCSL "hi!" [.MASTER] 100).1

/-- The entry stored for that master. -/
def oneServerEntry : CSL.Entry :=
  { serverId := { slot := 1, generation := 0 }
  , serviceLocator := "hi!"
  , services := [.MASTER]
  , expectedReadMBytesPerSec := 0
  , status := .UP
  , lastKnownVersion := 0 }

/-- C8 witness: crashing ServerId(1,0) once reaches the crashed state and
appends exactly one CRASHED record; crashing it again is a no-op. -/
theorem c8_witness :
    CSL.crashed oneServerCSL { slot := 1, generation := 0 } =
      .ok (CSL.crashedEffect oneServerCSL oneServerEntry) ∧
    CSL.crashed (CSL.crashedEffect oneServerCSL oneServerEntry)
        { slot := 1, generation := 0 } =
      .ok (CSL.crashedEffect oneServerCSL oneServerEntry) ∧
    (CSL.crashedEffect oneServerCSL oneServerEntry).updates =
      oneServerCSL.updates ++ [CSL.updateRec oneServerEntry .CRASHED] :=
  (c8_crashed_idempotent oneServerCSL { slot := 1, generation := 0 }
    oneServerEntry (by decide)).2 rfl

/-- Helper: growing the slot vector to an index it already contains is the
identity. -/
theorem ensureSize_of_lt (slots : List CSL.Slot) (i : Nat) (h : i < slots.length) :
    CSL.ensureSize slots i = slots := by
  unfold CSL.ensureSize
  have h0 : i + 1 - slots.length = 0 := by omega
  rw [h0]
  simp

/-- The server list with one master added from the initial state, together
with the returned ServerId. -/
def c7added : CSL.CSLState × CSL.ServerId := CSL.add CSL.initCSL "hi!" [.MASTER] 100

/-- The state reached by removing ServerId(1,0) from that list. -/
def c7afterRemove : CSL.CSLState :=
  match CSL.remove c7added.1 { slot := 1, generation := 0 } with
  | .ok t => t
  | .error _ => c7added.1

/-- C7 counterexample: remove does not increment the nextGeneration
counter of the slot.  After add returns ServerId(1,0) the counter of slot
1 is already 1; after remove it is still 1 (not 2) — yet the next add
still returns ServerId(1,1), because the bump happened at add time. -/
theorem c7_counterexample :
    c7added.2 = { slot := 1, generation := 0 } ∧
    c7added.1.serverList[1]?.map CSL.Slot.nextGenerationNumber = some 1 ∧
    CSL.remove c7added.1 { slot := 1, generation := 0 } = .ok c7afterRemove ∧
    c7afterRemove.serverList[1]?.map CSL.Slot.nextGenerationNumber = some 1 ∧
    ¬ c7afterRemove.serverList[1]?.map CSL.Slot.nextGenerationNumber = some 2 ∧
    (CSL.add c7afterRemove "hi, again" [.BACKUP] 100).2 =
      { slot := 1, generation := 1 } :=
  ⟨rfl, rfl, rfl, rfl, by decide, rfl⟩

/-- C7 (amended): removing a live UP entry first performs the effect of
crashed (one CRASHED record, counters adjusted) and then emits a DOWN
record and clears the slot.  The nextGeneration counter of the slot is
left unchanged by remove — it was already advanced past the generation of
the removed id when add assigned it — so the removed ServerId never
matches again (crashed, remove and lookup all fail with InvalidServerId),
and an add that reuses the slot returns the id with the generation
incremented. -/
theorem c7_remove_lifecycle (s : CSL.CSLState) (id : CSL.ServerId)
    (e : CSL.Entry) (he : CSL.getEntry s id = some e)
    (hup : e.status = .UP) :
    CSL.remove s id = .ok (CSL.downEffect (CSL.crashedEffect s e) e) ∧
    (CSL.downEffect (CSL.crashedEffect s e) e).updates =
      s.updates ++ [CSL.updateRec e .CRASHED, CSL.updateRec e .DOWN] ∧
    (CSL.downEffect (CSL.crashedEffect s e) e).numberOfMasters =
      s.numberOfMasters - (if e.services.contains .MASTER then 1 else 0) ∧
    (CSL.downEffect (CSL.crashedEffect s e) e).numberOfBackups =
      s.numberOfBackups - (if e.services.contains .BACKUP then 1 else 0) ∧
    (CSL.downEffect (CSL.crashedEffect s e) e).serverList[id.slot]?.map
      CSL.Slot.entry = some none ∧
    (CSL.downEffect (CSL.crashedEffect s e) e).serverList[id.slot]?.map
      CSL.Slot.nextGenerationNumber =
      s.serverList[id.slot]?.map CSL.Slot.nextGenerationNumber ∧
    CSL.getEntry (CSL.downEffect (CSL.crashedEffect s e) e) id = none ∧
    CSL.crashed (CSL.downEffect (CSL.crashedEffect s e) e) id =
      .error .invalidServerId ∧
    CSL.remove (CSL.downEffect (CSL.crashedEffect s e) e) id =
      .error .invalidServerId ∧
    (∀ (loc : String) (svc : List CSL.Service) (mbps : Nat),
      CSL.firstFreeIndex (CSL.downEffect (CSL.crashedEffect s e) e).serverList =
        id.slot →
      s.serverList[id.slot]?.map CSL.Slot.nextGenerationNumber =
        some (id.generation + 1) →
      (CSL.add (CSL.downEffect (CSL.crashedEffect s e) e) loc svc mbps).2 =
        { slot := id.slot, generation := id.generation + 1 }) := by
  obtain ⟨hid, sl, hsl, hent⟩ := getEntry_some s id e he
  have hslot : e.serverId.slot = id.slot := by rw [hid]
  have h1 : (CSL.crashedEffect s e).serverList[id.slot]? =
      some { sl with entry := some { e with status := .CRASHED } } := by
    show (CSL.setEntry s.serverList e.serverId.slot
      (some { e with status := .CRASHED }))[id.slot]? = _
    rw [hslot]
    exact setEntry_same s.serverList id.slot sl hsl _
  have h2 : (CSL.downEffect (CSL.crashedEffect s e) e).serverList[id.slot]? =
      some { sl with entry := none } := by
    show (CSL.setEntry (CSL.crashedEffect s e).serverList e.serverId.slot
      none)[id.slot]? = _
    rw [hslot]
    exact setEntry_same (CSL.crashedEffect s e).serverList id.slot _ h1 none
  have h5 : CSL.getEntry (CSL.downEffect (CSL.crashedEffect s e) e) id = none := by
    unfold CSL.getEntry
    rw [h2]
  refine ⟨?_, ?_, rfl, rfl, ?_, ?_, h5, ?_, ?_, ?_⟩
  · unfold CSL.remove
    rw [he]
    simp [hup]
  · show ((s.updates ++ [CSL.updateRec e .CRASHED]) ++ [CSL.updateRec e .DOWN]) =
      s.updates ++ [CSL.updateRec e .CRASHED, CSL.updateRec e .DOWN]
    rw [List.append_assoc]
    rfl
  · rw [h2]
    rfl
  · rw [h2, hsl]
    rfl
  · unfold CSL.crashed
    rw [h5]
  · unfold CSL.remove
    rw [h5]
  · intro loc svc mbps hfree hgen
    have hlt : id.slot < (CSL.downEffect (CSL.crashedEffect s e) e).serverList.length := by
      obtain ⟨hl, _⟩ := List.getElem?_eq_some_iff.mp h2
      exact hl
    have hgen2 : sl.nextGenerationNumber = id.generation + 1 := by
      rw [hsl] at hgen
      exact Option.some.inj hgen
    unfold CSL.add
    simp only [hfree, ensureSize_of_lt _ _ hlt, h2]
    rw [hgen2]
    rfl

/-- C7 witness: removing the UP entry ServerId(1,0) appends the CRASHED
and DOWN records, invalidates the id, and a subsequent add reusing slot 1
returns ServerId(1,1). -/
theorem c7_witness :
    CSL.remove oneServerCSL { slot := 1, generation := 0 } =
      .ok (CSL.downEffect (CSL.crashedEffect oneServerCSL oneServerEntry)
            oneServerEntry) ∧
    (CSL.downEffect (CSL.crashedEffect oneServerCSL oneServerEntry)
        oneServerEntry).updates =
      oneServerCSL.updates ++
        [CSL.updateRec oneServerEntry .CRASHED
        , CSL.updateRec oneServerEntry .DOWN] ∧
    CSL.getEntry (CSL.downEffect (CSL.crashedEffect oneServerCSL oneServerEntry)
        oneServerEntry) { slot := 1, generation := 0 } = none ∧
    (CSL.add (CSL.downEffect (CSL.crashedEffect oneServerCSL oneServerEntry)
        oneServerEntry) "hi, again" [.BACKUP] 100).2 =
      { slot := 1, generation := 1 } := by
  have h := c7_remove_lifecycle oneServerCSL { slot := 1, generation := 0 }
    oneServerEntry (by decide) rfl
  exact ⟨h.1, h.2.1, h.2.2.2.2.2.2.1,
    h.2.2.2.2.2.2.2.2.2 "hi, again" [.BACKUP] 100 (by decide) (by decide)⟩

/-- Helper: every message produced by updateRecipient is addressed to the
recipient entry itself. -/
theorem updateRecipient_recipient (oracle : CSL.ServerId → CSL.MsgKind → CSL.Reply)
    (v : Nat) (e : CSL.Entry) :
    ∀ msg ∈ (CSL.updateRecipient oracle v e).2, msg.recipient = e.serverId := by
  intro msg hm
  unfold CSL.updateRecipient at hm
  by_cases h : e.lastKnownVersion + 1 = v
  · rw [if_pos h] at hm
    cases h1 : oracle e.serverId .incremental with
    | ok =>
      rw [h1] at hm
      simp only [List.mem_singleton] at hm
      rw [hm]
    | lostUpdate =>
      rw [h1] at hm
      cases h2 : oracle e.serverId .fullList with
      | ok =>
        rw [h2] at hm
        simp only [List.mem_cons, List.mem_singleton] at hm
        rcases hm with rfl | rfl | hm
        · rfl
        · rfl
        · cases hm
      | lostUpdate =>
        rw [h2] at hm
        simp only [List.mem_cons, List.mem_singleton] at hm
        rcases hm with rfl | rfl | hm
        · rfl
        · rfl
        · cases hm
  · rw [if_neg h] at hm
    cases h2 : oracle e.serverId .fullList with
    | ok =>
      rw [h2] at hm
      simp only [List.mem_singleton] at hm
      rw [hm]
    | lostUpdate =>
      rw [h2] at hm
      simp only [List.mem_singleton] at hm
      rw [hm]

/-- C6: the membership update protocol.  Every dispatched message goes to
a slot entry that is UP, advertises MEMBERSHIP and is not excluded;
non-recipient slots are left untouched and receive nothing; the slots of
the new state are the per-slot results in slot order; a recipient whose
acknowledged version equals the delta version minus 1 receives the
incremental delta first and a lost_update reply triggers an immediate
full-list push; any other acknowledged version receives a full-list push
directly; and an ok reply records the new version for the recipient. -/
theorem c6_sendMembershipUpdate_protocol (s : CSL.CSLState)
    (exclude : List CSL.ServerId)
    (oracle : CSL.ServerId → CSL.MsgKind → CSL.Reply) :
    (∀ msg ∈ (CSL.sendMembershipUpdate s exclude oracle).2,
       ∃ sl ∈ s.serverList, ∃ e : CSL.Entry, sl.entry = some e ∧
         CSL.isRecipient exclude e = true ∧ msg.recipient = e.serverId) ∧
    (∀ (i : Nat) (sl : CSL.Slot), s.serverList[i]? = some sl →
       (CSL.sendMembershipUpdate s exclude oracle).1.serverList[i]? =
         some (CSL.updateSlot oracle exclude (s.version + 1) sl).1) ∧
    (∀ sl : CSL.Slot,
       (sl.entry = none ∨
        ∃ e : CSL.Entry, sl.entry = some e ∧
          CSL.isRecipient exclude e = false) →
       CSL.updateSlot oracle exclude (s.version + 1) sl = (sl, [])) ∧
    (∀ e : CSL.Entry, e.lastKnownVersion + 1 = s.version + 1 →
       (CSL.updateRecipient oracle (s.version + 1) e).2.head? =
         some { recipient := e.serverId, kind := .incremental
              , version := s.version + 1 } ∧
       (oracle e.serverId .incremental = .lostUpdate →
         (CSL.updateRecipient oracle (s.version + 1) e).2 =
           [{ recipient := e.serverId, kind := .incremental
            , version := s.version + 1 }
           , { recipient := e.serverId, kind := .fullList
             , version := s.version + 1 }]) ∧
       (oracle e.serverId .incremental = .ok →
         (CSL.updateRecipient oracle (s.version + 1) e).2 =
           [{ recipient := e.serverId, kind := .incremental
            , version := s.version + 1 }] ∧
         (CSL.updateRecipient oracle (s.version + 1) e).1.lastKnownVersion =
           s.version + 1)) ∧
    (∀ e : CSL.Entry, ¬ e.lastKnownVersion + 1 = s.version + 1 →
       (CSL.updateRecipient oracle (s.version + 1) e).2 =
         [{ recipient := e.serverId, kind := .fullList
          , version := s.version + 1 }]) ∧
    (∀ e : CSL.Entry, oracle e.serverId .fullList = .ok →
       (¬ e.lastKnownVersion + 1 = s.version + 1 ∨
        oracle e.serverId .incremental = .lostUpdate) →
       (CSL.updateRecipient oracle (s.version + 1) e).1.lastKnownVersion =
         s.version + 1) := by
  refine ⟨?_, ?_, ?_, ?_, ?_, ?_⟩
  · intro msg hm
    obtain ⟨l, hl, hml⟩ := List.mem_flatten.mp hm
    obtain ⟨r, hr, rfl⟩ := List.mem_map.mp hl
    obtain ⟨sl, hsl, rfl⟩ := List.mem_map.mp hr
    cases hent : sl.entry with
    | none =>
      unfold CSL.updateSlot at hml
      rw [hent] at hml
      simp only [] at hml
      cases hml
    | some e =>
      unfold CSL.updateSlot at hml
      rw [hent] at hml
      simp only [] at hml
      by_cases hrec : CSL.isRecipient exclude e
      · rw [if_pos hrec] at hml
        exact ⟨sl, hsl, e, hent, hrec,
          updateRecipient_recipient oracle (s.version + 1) e msg hml⟩
      · rw [if_neg hrec] at hml
        cases hml
  · intro i sl hsl
    show ((s.serverList.map (CSL.updateSlot oracle exclude (s.version + 1))).map
      Prod.fst)[i]? = _
    rw [List.getElem?_map, List.getElem?_map, hsl]
    rfl
  · intro sl h
    rcases h with hent | ⟨e, hent, hrec⟩
    · unfold CSL.updateSlot
      rw [hent]
    · unfold CSL.updateSlot
      rw [hent]
      simp only [hrec]
      rfl
  · intro e hv
    refine ⟨?_, ?_, ?_⟩
    · unfold CSL.updateRecipient
      rw [if_pos hv]
      cases h1 : oracle e.serverId .incremental with
      | ok => rfl
      | lostUpdate =>
        cases h2 : oracle e.serverId .fullList with
        | ok => rfl
        | lostUpdate => rfl
    · intro h1
      unfold CSL.updateRecipient
      rw [if_pos hv, h1]
      cases h2 : oracle e.serverId .fullList with
      | ok => rfl
      | lostUpdate => rfl
    · intro h1
      unfold CSL.updateRecipient
      rw [if_pos hv, h1]
      exact ⟨rfl, rfl⟩
  · intro e hv
    unfold CSL.updateRecipient
    rw [if_neg hv]
    cases h2 : oracle e.serverId .fullList with
    | ok => rfl
    | lostUpdate => rfl
  · intro e hok hcase
    unfold CSL.updateRecipient
    rcases hcase with hv | hlost
    · rw [if_neg hv, hok]
    · by_cases hv : e.lastKnownVersion + 1 = s.version + 1
      · rw [if_pos hv, hlost, hok]
      · rw [if_neg hv, hok]

/-- Two membership subscribers in slots 1 and 2, as in the unit test. -/
def memberListCSL : CSL.CSLState :=
  (CSL.add (CSL.add CSL.initCSL "mock:host=server5" [.MEMBERSHIP] 0).1
    "mock:host=server4" [.MEMBERSHIP] 0).1

/-- The entry of the subscriber in slot 1. -/
def member5Entry : CSL.Entry :=
  { serverId := { slot := 1, generation := 0 }
  , serviceLocator := "mock:host=server5"
  , services := [.MEMBERSHIP]
  , expectedReadMBytesPerSec := 0
  , status := .UP
  , lastKnownVersion := 0 }

/-- A reply oracle where the slot-1 subscriber loses the incremental
update but accepts the full-list push, and everyone else replies ok. -/
def troubleOracle : CSL.ServerId → CSL.MsgKind → CSL.Reply := fun id k =>
  if id.slot = 1 then
    match k with
    | .incremental => .lostUpdate
    | .fullList => .ok
  else .ok

/-- C6 witness: the slot-1 subscriber is at the expected version, gets
the incremental delta, replies lost_update, immediately receives the
full-list push, and its recorded version advances on the ok reply. -/
theorem c6_witness :
    (CSL.updateRecipient troubleOracle (memberListCSL.version + 1)
        member5Entry).2 =
      [{ recipient := { slot := 1, generation := 0 }
       , kind := .incremental, version := 1 }
      , { recipient := { slot := 1, generation := 0 }
        , kind := .fullList, version := 1 }] ∧
    (CSL.updateRecipient troubleOracle (memberListCSL.version + 1)
        member5Entry).1.lastKnownVersion = 1 := by
  have h := c6_sendMembershipUpdate_protocol memberListCSL [] troubleOracle
  exact ⟨(h.2.2.2.1 member5Entry rfl).2.1 rfl,
    h.2.2.2.2.2 member5Entry rfl (Or.inr rfl)⟩
